import Mathlib

/-!
# Verification of the sbomlicense enrichment core

A shallow embedding of the license-enrichment engine of `boringbin/sbomlicense`:
the SPDX and CycloneDX document views, the cache backends (in-memory and bbolt),
the cache-through lookup, the ecosyste.ms provider client's response handling,
and the worker-pool enrichment loop.

Modelling conventions:
* SBOM bytes are modelled as parsed JSON values (`Json`); Go's `encoding/json`
  behaviour on the minimal structs is mirrored by explicit decode/encode
  functions (absent or `null` fields decode to zero values, wrongly-typed
  fields fail the decode, duplicate keys resolve to the last occurrence;
  the case-insensitive key fallback of `encoding/json` is not modelled).
* Wall-clock time (`time.Now()`) is an explicit integer parameter `now`
  threaded through the cache operations.
* The provider interface and the cache seen by the cache-through lookup are
  oracles (plain functions), exactly as the Go code sees them through the
  `provider.Provider` and `cache.Cache` interfaces.
* The worker pool processes each item through one deterministic per-item step;
  concurrency only affects scheduling order, and each item occupies a distinct
  mutable slot, so per-item results are order-independent.  Effects (cache
  reads, provider calls, cache writes, enqueueing) are recorded in traces.
* Logging is I/O and is not modelled; a "logged and skipped" item is an item
  returned unchanged by its step.
-/

namespace SbomLicense

/-- JSON values (numbers restricted to integers; no claim touches
fractional numeric fields). -/
inductive Json where
  | null : Json
  | bool (b : Bool) : Json
  | num (n : Int) : Json
  | str (s : String) : Json
  | arr (items : List Json) : Json
  | obj (fields : List (String × Json)) : Json

/-- Last-wins field lookup, matching how `encoding/json` resolves duplicate
object keys (later values overwrite earlier ones). -/
def lookupField (fields : List (String × Json)) (k : String) : Option Json :=
  match fields with
  | [] => none
  | (k', v) :: rest =>
    match lookupField rest k with
    | some r => some r
    | none => if k' == k then some v else none

/-- Whether a JSON object carries a field named `k`. -/
def Json.hasField (j : Json) (k : String) : Bool :=
  match j with
  | .obj fields => (lookupField fields k).isSome
  | _ => false

/-- Decode a string-typed struct field: absent and `null` leave the zero
value `""`; a JSON string is taken verbatim; any other shape fails, as
`json.Unmarshal` fails on a type mismatch. -/
def decodeStringField (fields : List (String × Json)) (k : String) : Option String :=
  match lookupField fields k with
  | none => some ""
  | some .null => some ""
  | some (.str s) => some s
  | some _ => none

/-- Element-wise decoding of a JSON array, failing on the first element
that fails, as `json.Unmarshal` does for slices. -/
def decodeEach (dec : Json → Option α) : List Json → Option (List α)
  | [] => some []
  | x :: xs =>
    match dec x with
    | none => none
    | some y => (decodeEach dec xs).map (y :: ·)

/-- Decode a slice-typed struct field, keeping the `nil` / empty distinction:
absent and `null` give `none` (a nil Go slice); an array decodes each
element; any other shape fails. -/
def decodeOptArrField (fields : List (String × Json)) (k : String)
    (dec : Json → Option α) : Option (Option (List α)) :=
  match lookupField fields k with
  | none => some none
  | some .null => some none
  | some (.arr xs) => (decodeEach dec xs).map some
  | some _ => none

/-- Decode a slice-typed struct field where the `nil` / empty distinction is
unobservable (the field is marshalled with `omitempty`): absent and `null`
give `[]`. -/
def decodeArrField (fields : List (String × Json)) (k : String)
    (dec : Json → Option α) : Option (List α) :=
  match lookupField fields k with
  | none => some []
  | some .null => some []
  | some (.arr xs) => decodeEach dec xs
  | some _ => none

/-- Decode a pointer-typed struct field: absent and `null` give a nil
pointer (`none`); otherwise the pointee is decoded. -/
def decodePtrField (fields : List (String × Json)) (k : String)
    (dec : Json → Option α) : Option (Option α) :=
  match lookupField fields k with
  | none => some none
  | some .null => some none
  | some v => (dec v).map some

/-- Marshal a nil-able slice field without `omitempty`: a nil slice
marshals as `null`, otherwise as an array. -/
def encodeOptArr (enc : α → Json) : Option (List α) → Json
  | none => .null
  | some xs => .arr (xs.map enc)

/-! ## Cache errors (src/internal/cache/cache.go) -/

/-- The error outcomes of a cache operation: the `ErrCacheMiss` sentinel,
the `ErrCacheClosed` sentinel, and any other (storage) error. -/
inductive CacheError where
  | miss : CacheError
  | closed : CacheError
  | other (msg : String) : CacheError
  deriving DecidableEq, Repr

/-! ## SPDX view (src/unnamed/part_009, package enricher) -/

/-- `spdxLicenseNone`: the `NONE` value in SPDX license fields. -/
def spdxLicenseNone : String := "NONE"

/-- `spdxLicenseNoAssertion`: the `NOASSERTION` value in SPDX license fields. -/
def spdxLicenseNoAssertion : String := "NOASSERTION"

/-- SPDX `ExternalRef` (like purl). -/
structure ExternalRef where
  referenceCategory : String
  referenceType : String
  referenceLocator : String
  deriving DecidableEq, Repr

/-- Minimal SPDX `Package` with only the fields the program models.
`externalRefs` keeps the Go nil-slice / empty-slice distinction. -/
structure Package where
  SPDXID : String
  name : String
  versionInfo : String
  homepage : String
  licenseConcluded : String
  licenseDeclared : String
  externalRefs : Option (List ExternalRef)
  deriving DecidableEq, Repr

/-- Minimal SPDX `Document` with only the fields the program models. -/
structure Document where
  spdxVersion : String
  SPDXID : String
  packages : Option (List Package)
  deriving DecidableEq, Repr

/-- `Package.HasLicense`: true if the package already has license
information, checking both `LicenseConcluded` and `LicenseDeclared`. -/
def Package.HasLicense (p : Package) : Bool :=
  (p.licenseConcluded != "" &&
    p.licenseConcluded != spdxLicenseNone &&
    p.licenseConcluded != spdxLicenseNoAssertion) ||
  (p.licenseDeclared != "" &&
    p.licenseDeclared != spdxLicenseNone &&
    p.licenseDeclared != spdxLicenseNoAssertion)

/-- `Package.SetLicense`: sets `LicenseConcluded` as the primary field and
also updates `LicenseDeclared` if it is empty or a sentinel. -/
def Package.SetLicense (p : Package) (license : String) : Package :=
  let p' := { p with licenseConcluded := license }
  if p'.licenseDeclared == "" ||
      p'.licenseDeclared == spdxLicenseNone ||
      p'.licenseDeclared == spdxLicenseNoAssertion then
    { p' with licenseDeclared := license }
  else
    p'

/-- `Package.GetLogID`: the SPDX ID, for logging. -/
def Package.GetLogID (p : Package) : String := p.SPDXID

/-- `GetSPDXPackagePurl`: the `referenceLocator` of the first external
reference whose `referenceType` is `"purl"`; an error otherwise. -/
def GetSPDXPackagePurl (pkg : Package) : Except String String :=
  match (pkg.externalRefs.getD []).find? (fun ref => ref.referenceType == "purl") with
  | some ref => .ok ref.referenceLocator
  | none => .error ("no PURL found for package with SPDX ID " ++ pkg.SPDXID)

/-- `Package.GetPurl`: delegates to `GetSPDXPackagePurl`. -/
def Package.GetPurl (p : Package) : Except String String :=
  GetSPDXPackagePurl p

/-- `UnwrapGitHubSBOM`: if the document is an object with an `sbom` key,
return that value; a non-object document that is not `null` fails the
`map[string]json.RawMessage` unmarshal. -/
def UnwrapGitHubSBOM (j : Json) : Except String Json :=
  match j with
  | .obj fields =>
    match lookupField fields "sbom" with
    | some inner => .ok inner
    | none => .ok j
  | .null => .ok j
  | _ => .error "failed to parse JSON"

/-- `json.Unmarshal` into `ExternalRef`. -/
def decodeExternalRef (j : Json) : Option ExternalRef :=
  match j with
  | .null => some ⟨"", "", ""⟩
  | .obj fields => do
    let rc ← decodeStringField fields "referenceCategory"
    let rt ← decodeStringField fields "referenceType"
    let rl ← decodeStringField fields "referenceLocator"
    pure ⟨rc, rt, rl⟩
  | _ => none

/-- `json.Unmarshal` into `Package`. -/
def decodePackage (j : Json) : Option Package :=
  match j with
  | .null => some ⟨"", "", "", "", "", "", none⟩
  | .obj fields => do
    let spdxid ← decodeStringField fields "SPDXID"
    let nm ← decodeStringField fields "name"
    let vi ← decodeStringField fields "versionInfo"
    let hp ← decodeStringField fields "homepage"
    let lc ← decodeStringField fields "licenseConcluded"
    let ld ← decodeStringField fields "licenseDeclared"
    let refs ← decodeOptArrField fields "externalRefs" decodeExternalRef
    pure ⟨spdxid, nm, vi, hp, lc, ld, refs⟩
  | _ => none

/-- `json.Unmarshal` into `Document`. -/
def decodeDocument (j : Json) : Option Document :=
  match j with
  | .null => some ⟨"", "", none⟩
  | .obj fields => do
    let sv ← decodeStringField fields "spdxVersion"
    let spdxid ← decodeStringField fields "SPDXID"
    let pkgs ← decodeOptArrField fields "packages" decodePackage
    pure ⟨sv, spdxid, pkgs⟩
  | _ => none

/-- `json.Marshal` of `ExternalRef`. -/
def encodeExternalRef (r : ExternalRef) : Json :=
  .obj [("referenceCategory", .str r.referenceCategory),
        ("referenceType", .str r.referenceType),
        ("referenceLocator", .str r.referenceLocator)]

/-- `json.Marshal` of `Package` (no `omitempty` on any field). -/
def encodePackage (p : Package) : Json :=
  .obj [("SPDXID", .str p.SPDXID),
        ("name", .str p.name),
        ("versionInfo", .str p.versionInfo),
        ("homepage", .str p.homepage),
        ("licenseConcluded", .str p.licenseConcluded),
        ("licenseDeclared", .str p.licenseDeclared),
        ("externalRefs", encodeOptArr encodeExternalRef p.externalRefs)]

/-- `json.Marshal` of `Document` (no `omitempty` on any field). -/
def encodeDocument (d : Document) : Json :=
  .obj [("spdxVersion", .str d.spdxVersion),
        ("SPDXID", .str d.SPDXID),
        ("packages", encodeOptArr encodePackage d.packages)]

/-- `ParseSBOMFile`: unwrap the GitHub envelope if present, then parse the
JSON into an SPDX `Document`. -/
def ParseSBOMFile (j : Json) : Except String Document :=
  match UnwrapGitHubSBOM j with
  | .error e => .error ("failed to unwrap GitHub SBOM: " ++ e)
  | .ok unwrapped =>
    match decodeDocument unwrapped with
    | none => .error "failed to parse SBOM JSON"
    | some doc => .ok doc

/-! ## CycloneDX view (src/unnamed/part_007, package enricher) -/

/-- CycloneDX `LicenseText`. -/
structure LicenseText where
  content : String
  deriving DecidableEq, Repr

/-- CycloneDX `License`.  All four fields are marshalled with `omitempty`;
`text` is a pointer. -/
structure License where
  id : String
  name : String
  expression : String
  text : Option LicenseText
  deriving DecidableEq, Repr

/-- CycloneDX `LicenseChoice`: either a nested `license` object (a pointer,
`omitempty`) or an `expression` string (`omitempty`). -/
structure LicenseChoice where
  license : Option License
  expression : String
  deriving DecidableEq, Repr

/-- CycloneDX `ExternalReference`. -/
structure ExternalReference where
  url : String
  type : String
  deriving DecidableEq, Repr

/-- Minimal CycloneDX `Component` with only the fields the program models.
`licenses` is marshalled with `omitempty`, which makes nil and empty slices
indistinguishable, so it is a plain list; `externalReferences` is not, so
it keeps the nil / empty distinction. -/
structure Component where
  bomRef : String
  name : String
  version : String
  purl : String
  licenses : List LicenseChoice
  externalReferences : Option (List ExternalReference)
  deriving DecidableEq, Repr

/-- Minimal CycloneDX `BOM` with only the fields the program models.
`components` is marshalled with `omitempty`, so it is a plain list. -/
structure BOM where
  bomFormat : String
  specVersion : String
  components : List Component
  deriving DecidableEq, Repr

/-- `GetCycloneDXComponentPurl`: the component's `purl` field. -/
def GetCycloneDXComponentPurl (component : Component) : String :=
  component.purl

/-- `Component.GetPurl`: always succeeds with the `purl` field, even when
that field is the empty string. -/
def Component.GetPurl (c : Component) : Except String String :=
  .ok (GetCycloneDXComponentPurl c)

/-- `HasComponentLicense`: whether the component already has a license in
any format — some choice with a non-empty `expression`, or a nested
`license` object with non-empty `id`, `name`, or `expression`. -/
def HasComponentLicense (component : Component) : Bool :=
  if component.licenses.length == 0 then
    false
  else
    component.licenses.any (fun choice =>
      choice.expression != "" ||
      (match choice.license with
       | some l => l.id != "" || l.name != "" || l.expression != ""
       | none => false))

/-- `Component.HasLicense`: delegates to `HasComponentLicense`. -/
def Component.HasLicense (c : Component) : Bool :=
  HasComponentLicense c

/-- `Component.SetLicense`: appends a license choice in `Expression`
format to the `licenses` array. -/
def Component.SetLicense (c : Component) (license : String) : Component :=
  { c with licenses := c.licenses ++ [{ license := none, expression := license }] }

/-- `Component.GetLogID`: the BOM reference, for logging. -/
def Component.GetLogID (c : Component) : String :=
  c.bomRef

/-- `json.Unmarshal` into `LicenseText`. -/
def decodeLicenseText (j : Json) : Option LicenseText :=
  match j with
  | .null => some ⟨""⟩
  | .obj fields => (decodeStringField fields "content").map (⟨·⟩)
  | _ => none

/-- `json.Unmarshal` into `License`. -/
def decodeLicense (j : Json) : Option License :=
  match j with
  | .null => some ⟨"", "", "", none⟩
  | .obj fields => do
    let i ← decodeStringField fields "id"
    let n ← decodeStringField fields "name"
    let e ← decodeStringField fields "expression"
    let t ← decodePtrField fields "text" decodeLicenseText
    pure ⟨i, n, e, t⟩
  | _ => none

/-- `json.Unmarshal` into `LicenseChoice`. -/
def decodeLicenseChoice (j : Json) : Option LicenseChoice :=
  match j with
  | .null => some ⟨none, ""⟩
  | .obj fields => do
    let l ← decodePtrField fields "license" decodeLicense
    let e ← decodeStringField fields "expression"
    pure ⟨l, e⟩
  | _ => none

/-- `json.Unmarshal` into `ExternalReference`. -/
def decodeExternalReference (j : Json) : Option ExternalReference :=
  match j with
  | .null => some ⟨"", ""⟩
  | .obj fields => do
    let u ← decodeStringField fields "url"
    let t ← decodeStringField fields "type"
    pure ⟨u, t⟩
  | _ => none

/-- `json.Unmarshal` into `Component`. -/
def decodeComponent (j : Json) : Option Component :=
  match j with
  | .null => some ⟨"", "", "", "", [], none⟩
  | .obj fields => do
    let br ← decodeStringField fields "bom-ref"
    let n ← decodeStringField fields "name"
    let v ← decodeStringField fields "version"
    let p ← decodeStringField fields "purl"
    let ls ← decodeArrField fields "licenses" decodeLicenseChoice
    let er ← decodeOptArrField fields "externalReferences" decodeExternalReference
    pure ⟨br, n, v, p, ls, er⟩
  | _ => none

/-- `json.Unmarshal` into `BOM`. -/
def decodeBOM (j : Json) : Option BOM :=
  match j with
  | .null => some ⟨"", "", []⟩
  | .obj fields => do
    let bf ← decodeStringField fields "bomFormat"
    let sv ← decodeStringField fields "specVersion"
    let cs ← decodeArrField fields "components" decodeComponent
    pure ⟨bf, sv, cs⟩
  | _ => none

/-- `json.Marshal` of `LicenseText` (`content` has no `omitempty`). -/
def encodeLicenseText (t : LicenseText) : Json :=
  .obj [("content", .str t.content)]

/-- `json.Marshal` of `License` (all fields `omitempty`). -/
def encodeLicense (l : License) : Json :=
  .obj ((if l.id != "" then [("id", Json.str l.id)] else []) ++
        (if l.name != "" then [("name", Json.str l.name)] else []) ++
        (if l.expression != "" then [("expression", Json.str l.expression)] else []) ++
        (match l.text with
         | some t => [("text", encodeLicenseText t)]
         | none => []))

/-- `json.Marshal` of `LicenseChoice` (both fields `omitempty`). -/
def encodeLicenseChoice (ch : LicenseChoice) : Json :=
  .obj ((match ch.license with
         | some l => [("license", encodeLicense l)]
         | none => []) ++
        (if ch.expression != "" then [("expression", Json.str ch.expression)] else []))

/-- `json.Marshal` of `ExternalReference` (no `omitempty`). -/
def encodeExternalReference (r : ExternalReference) : Json :=
  .obj [("url", .str r.url), ("type", .str r.type)]

/-- `json.Marshal` of `Component` (`licenses` has `omitempty`, dropped
when empty; the other fields are always emitted). -/
def encodeComponent (c : Component) : Json :=
  .obj ([("bom-ref", Json.str c.bomRef),
         ("name", Json.str c.name),
         ("version", Json.str c.version),
         ("purl", Json.str c.purl)] ++
        (if c.licenses.isEmpty then []
         else [("licenses", Json.arr (c.licenses.map encodeLicenseChoice))]) ++
        [("externalReferences", encodeOptArr encodeExternalReference c.externalReferences)])

/-- `json.Marshal` of `BOM` (`components` has `omitempty`, dropped when
empty). -/
def encodeBOM (b : BOM) : Json :=
  .obj ([("bomFormat", Json.str b.bomFormat),
         ("specVersion", Json.str b.specVersion)] ++
        (if b.components.isEmpty then []
         else [("components", Json.arr (b.components.map encodeComponent))]))

/-- `ParseCycloneDXFile`: parse the JSON into a CycloneDX `BOM` (no
envelope unwrapping on this path). -/
def ParseCycloneDXFile (j : Json) : Except String BOM :=
  match decodeBOM j with
  | some bom => .ok bom
  | none => .error "failed to parse CycloneDX JSON"

/-! ## MemoryCache (src/unnamed/part_015, package cache)

`time.Now()` is modelled as an explicit integer instant passed to each
operation; `time.Duration` is an integer. -/

/-- In-memory `cacheEntry`: a value with optional expiration (the zero
`time.Time` — "no expiration" — is `none`). -/
structure MemEntry where
  value : String
  expiration : Option Int
  deriving DecidableEq, Repr

/-- `cacheEntry.isExpired`: a non-zero expiration strictly in the past
(`time.Now().After(expiration)`). -/
def MemEntry.isExpired (e : MemEntry) (now : Int) : Bool :=
  match e.expiration with
  | none => false
  | some t => now > t

/-- `MemoryCache` state: the closed flag and the key-to-entry map,
modelled as an association list where the most recent write shadows
earlier ones. -/
structure MemoryCache where
  closed : Bool
  entries : List (String × MemEntry)
  deriving DecidableEq, Repr

/-- `NewMemoryCache`: open, with an empty map. -/
def NewMemoryCache : MemoryCache := ⟨false, []⟩

/-- `MemoryCache.Get`: `ErrCacheClosed` after close; `ErrCacheMiss` when
the key is absent or the entry has expired. -/
def MemoryCache.Get (c : MemoryCache) (now : Int) (key : String) :
    Except CacheError String :=
  if c.closed then .error .closed
  else
    match c.entries.find? (fun kv => kv.1 == key) with
    | none => .error .miss
    | some kv => if kv.2.isExpired now then .error .miss else .ok kv.2.value

/-- `MemoryCache.SetWithTTL`: `ttl > 0` sets the expiration to
`now + ttl`; `ttl ≤ 0` stores an entry that never expires.  Overwrites are
unconditional. -/
def MemoryCache.SetWithTTL (c : MemoryCache) (now : Int) (key value : String)
    (ttl : Int) : Except CacheError MemoryCache :=
  if c.closed then .error .closed
  else
    .ok { c with
          entries := (key, ⟨value, if ttl > 0 then some (now + ttl) else none⟩)
                       :: c.entries }

/-- `MemoryCache.Delete`: idempotent removal. -/
def MemoryCache.Delete (c : MemoryCache) (key : String) :
    Except CacheError MemoryCache :=
  if c.closed then .error .closed
  else .ok { c with entries := c.entries.filter (fun kv => kv.1 != key) }

/-- `MemoryCache.Close`: idempotent; drops the map. -/
def MemoryCache.Close (c : MemoryCache) : MemoryCache :=
  if c.closed then c else ⟨true, []⟩

/-! ## BboltCache (src/unnamed/part_014, package cache)

The single `licenses` bucket is modelled as an association list from keys
to stored records.  A stored record is either the JSON-marshalled
`bboltEntry` or a legacy raw string (pre-TTL layout); on read, a record
that fails to parse as `bboltEntry` is returned as the raw bytes.  bbolt's
rejection of empty keys (`ErrKeyRequired`) is modelled; other storage
failures are not. -/

/-- A record stored in the bbolt bucket. -/
inductive BboltStored where
  | entry (value : String) (expiration : Option Int) : BboltStored
  | raw (s : String) : BboltStored
  deriving DecidableEq, Repr

/-- `BboltCache` state: the closed flag and the bucket contents. -/
structure BboltCache where
  closed : Bool
  db : List (String × BboltStored)
  deriving DecidableEq, Repr

/-- `bboltEntry.isExpired`: non-zero expiration strictly in the past. -/
def BboltStored.isExpiredEntry (now : Int) : BboltStored → Bool
  | .entry _ (some t) => now > t
  | _ => false

/-- `BboltCache.Get`: `ErrCacheClosed` after close; `ErrCacheMiss` when
the key is absent or the structured entry has expired; a legacy raw
record is returned verbatim. -/
def BboltCache.Get (c : BboltCache) (now : Int) (key : String) :
    Except CacheError String :=
  if c.closed then .error .closed
  else
    match c.db.find? (fun kv => kv.1 == key) with
    | none => .error .miss
    | some (_, .raw s) => .ok s
    | some (_, .entry v exp) =>
      if (BboltStored.entry v exp).isExpiredEntry now then .error .miss else .ok v

/-- `BboltCache.SetWithTTL`: always writes the structured `bboltEntry`
form; `ttl > 0` sets the expiration to `now + ttl`; empty keys are
rejected by bbolt (`ErrKeyRequired`). -/
def BboltCache.SetWithTTL (c : BboltCache) (now : Int) (key value : String)
    (ttl : Int) : Except CacheError BboltCache :=
  if c.closed then .error .closed
  else if key == "" then .error (.other "key required")
  else
    .ok { c with
          db := (key, .entry value (if ttl > 0 then some (now + ttl) else none))
                  :: c.db }

/-- `BboltCache.Delete`: idempotent removal. -/
def BboltCache.Delete (c : BboltCache) (key : String) :
    Except CacheError BboltCache :=
  if c.closed then .error .closed
  else .ok { c with db := c.db.filter (fun kv => kv.1 != key) }

/-- `BboltCache.Close`: idempotent; the file contents persist. -/
def BboltCache.Close (c : BboltCache) : BboltCache :=
  { c with closed := true }

/-! ## Ecosystems provider client (src/unnamed/part_006, Client.Get)

The HTTP transport is outside the embedding: `clientGet` models what
`Client.Get` does with the response it receives — the status-code switch
and the body decoding.  Request construction (URL encoding, the
`User-Agent` / polite-pool header) does not affect the claims settled
here. -/

/-- The error kinds `Client.Get` can produce, keyed the way the calling
code distinguishes them (`errors.Is(err, ErrLicenseNotFound)` etc.). -/
inductive ProviderError where
  | notFound : ProviderError
  | rateLimited : ProviderError
  | unavailable (status : Int) : ProviderError
  | apiError (status : Int) : ProviderError
  | invalidResponse : ProviderError
  deriving DecidableEq, Repr

/-- `ecosystemsPackagesLookupResponse`: one result object, of which only
`normalized_licenses` is decoded. -/
structure LookupResponse where
  normalizedLicenses : List String
  deriving DecidableEq, Repr

/-- Decode one element of the response array. -/
def decodeLookupResponse (j : Json) : Option LookupResponse :=
  match j with
  | .null => some ⟨[]⟩
  | .obj fields =>
    match lookupField fields "normalized_licenses" with
    | none => some ⟨[]⟩
    | some .null => some ⟨[]⟩
    | some (.arr xs) =>
      (decodeEach (fun x =>
        match x with
        | Json.str s => some s
        | Json.null => some ""
        | _ => none) xs).map (⟨·⟩)
    | some _ => none
  | _ => none

/-- Decode the response body as `[]ecosystemsPackagesLookupResponse`
(a top-level `null` decodes to a nil slice). -/
def decodeResults (j : Json) : Option (List LookupResponse) :=
  match j with
  | .null => some []
  | .arr xs => decodeEach decodeLookupResponse xs
  | _ => none

/-- `Client.Get`, from the HTTP response onward: the status-code switch,
then the body decode, then the results check, then the first normalized
license of the first result. -/
def clientGet (status : Int) (body : Json) : Except ProviderError String :=
  if status != 200 then
    if status == 404 then .error .notFound
    else if status == 429 then .error .rateLimited
    else if status == 502 || status == 503 || status == 504 then
      .error (.unavailable status)
    else .error (.apiError status)
  else
    match decodeResults body with
    | none => .error .invalidResponse
    | some results =>
      if results.length == 0 ||
          ((results.headD ⟨[]⟩).normalizedLicenses).length == 0 then
        .error .notFound
      else
        .ok (((results.headD ⟨[]⟩).normalizedLicenses).headD "")

/-! ## Cache-through lookup (src/unnamed/part_006, provider.Get)

`provider.Get` sees the provider and the cache through interfaces; both
are modelled as oracles.  The cache oracle's `get` and `setWithTTL` give
the results the in-scope cache state would give to the single read and
the single optional write the function performs. -/

/-- The cache as seen through the `cache.Cache` interface. -/
structure CacheOracle where
  get : String → Except CacheError String
  setWithTTL : String → String → Int → Except CacheError Unit

/-- `provider.GetOptions`: the purl, the provider, the optional cache and
the cache TTL. -/
structure GetOptions where
  purl : String
  provider : String → Except ProviderError String
  cache : Option CacheOracle
  cacheTTL : Int

/-- The provenance of a `provider.Get` failure (the Go code wraps each
with a distinct `fmt.Errorf("%w")` message). -/
inductive LookupError where
  | fromCacheGet (e : CacheError) : LookupError
  | fromProvider (e : ProviderError) : LookupError
  | fromCacheSet (e : CacheError) : LookupError
  deriving DecidableEq, Repr

/-- Decidable equality for `Except` results, used to evaluate concrete
lookup outcomes. -/
instance {ε α : Type} [DecidableEq ε] [DecidableEq α] : DecidableEq (Except ε α) :=
  fun a b =>
    match a, b with
    | .ok x, .ok y =>
      if h : x = y then .isTrue (by rw [h]) else .isFalse (by simp [h])
    | .error x, .error y =>
      if h : x = y then .isTrue (by rw [h]) else .isFalse (by simp [h])
    | .ok _, .error _ => .isFalse (by simp)
    | .error _, .ok _ => .isFalse (by simp)

/-- The outcome of one `provider.Get` call, with its effect trace: whether
the cache was read, whether the provider was called, and the arguments of
the `SetWithTTL` call if one was made. -/
structure LookupOut where
  result : Except LookupError String
  cacheRead : Bool
  providerCalled : Bool
  cacheSet : Option (String × String × Int)
  deriving DecidableEq, Repr

/-- The tail of `provider.Get` after the cache read missed (or no cache is
configured): call the provider, and on a non-empty result with a cache
present write it with the configured TTL before returning. -/
def providerGetFromService (opts : GetOptions) (cacheRead : Bool) : LookupOut :=
  match opts.provider opts.purl with
  | .error e => ⟨.error (.fromProvider e), cacheRead, true, none⟩
  | .ok license =>
    if license != "" then
      match opts.cache with
      | some c =>
        match c.setWithTTL opts.purl license opts.cacheTTL with
        | .error setErr =>
          ⟨.error (.fromCacheSet setErr), cacheRead, true,
            some (opts.purl, license, opts.cacheTTL)⟩
        | .ok _ =>
          ⟨.ok license, cacheRead, true, some (opts.purl, license, opts.cacheTTL)⟩
      | none => ⟨.ok license, cacheRead, true, none⟩
    else
      ⟨.ok license, cacheRead, true, none⟩

/-- `provider.Get`: the cache-through lookup.  A successful cache read
returns the cached value; a non-miss cache error is surfaced without
consulting the provider; a miss falls through to the provider. -/
def providerGet (opts : GetOptions) : LookupOut :=
  match opts.cache with
  | some c =>
    match c.get opts.purl with
    | .ok license => ⟨.ok license, true, false, none⟩
    | .error e =>
      if e == .miss then providerGetFromService opts true
      else ⟨.error (.fromCacheGet e), true, false, none⟩
  | none => providerGetFromService opts false

/-! ## Worker pool and enrichment engine (src/internal/enricher/worker.go)

The `enrichableItem` interface is a record of the four capabilities; the
worker pool is modelled by one deterministic step per item (items occupy
distinct mutable slots, so the per-item outcome does not depend on
scheduling), with an effect trace recording dispatch and the single
cache-through lookup, if any. -/

/-- The `enrichableItem` interface from worker.go. -/
structure ItemOps (α : Type) where
  getPurl : α → Except String String
  hasLicense : α → Bool
  setLicense : α → String → α
  getLogID : α → String

/-- SPDX packages as enrichable items. -/
def spdxOps : ItemOps Package :=
  ⟨Package.GetPurl, Package.HasLicense, Package.SetLicense, Package.GetLogID⟩

/-- CycloneDX components as enrichable items. -/
def cdxOps : ItemOps Component :=
  ⟨Component.GetPurl, Component.HasLicense, Component.SetLicense, Component.GetLogID⟩

/-- The provider, optional cache, and TTL an enricher carries
(`SPDXEnricher` / `CycloneDXEnricher` fields). -/
structure WorkerEnv where
  provider : String → Except ProviderError String
  cache : Option CacheOracle
  cacheTTL : Int

/-- The fate of one item: the (possibly updated) item, whether its job was
enqueued (purl extraction succeeded), and the purl and outcome of the
cache-through lookup if one was performed. -/
structure StepOut (α : Type) where
  item : α
  enqueued : Bool
  lookup : Option (String × LookupOut)

/-- One item's trip through `processItemsParallel`: purl extraction at
dispatch (a failure is logged and the item skipped before reaching a
worker), then in the worker the `HasLicense` skip, the cache-through
lookup (a failure is logged and the item left as is), and `SetLicense`
only on a non-empty license. -/
def processItem (ops : ItemOps α) (env : WorkerEnv) (item : α) : StepOut α :=
  match ops.getPurl item with
  | .error _ => ⟨item, false, none⟩
  | .ok purl =>
    if ops.hasLicense item then ⟨item, true, none⟩
    else
      let out := providerGet ⟨purl, env.provider, env.cache, env.cacheTTL⟩
      match out.result with
      | .error _ => ⟨item, true, some (purl, out)⟩
      | .ok lic =>
        if lic != "" then ⟨ops.setLicense item lic, true, some (purl, out)⟩
        else ⟨item, true, some (purl, out)⟩

/-- `processItemsParallel`: every item goes through exactly one step; all
per-item errors are absorbed into the steps, and the function's own error
result is always `nil`.  The worker count only affects scheduling, not
any per-item outcome, and is unused here. -/
def processItemsParallel (ops : ItemOps α) (env : WorkerEnv) (items : List α)
    (parallelism : Int) : Except String (List (StepOut α)) :=
  .ok (items.map (processItem ops env))

/-- `enrichDocument`: the empty-items fast path returns the original
input; otherwise the items are processed with the normalized worker count
and the mutated document is marshalled.  `getItems` / `setItems` model the
Go item slice of pointers into the document. -/
def enrichDocument (ops : ItemOps α) (env : WorkerEnv) (sbom : Json)
    (parallelism : Int) (doc : δ) (getItems : δ → List α)
    (setItems : δ → List α → δ) (marshalFn : δ → Except String Json) :
    Except String Json :=
  let items := getItems doc
  if items.length == 0 then .ok sbom
  else
    match processItemsParallel ops env items
        (if parallelism ≤ 0 then 1 else parallelism) with
    | .error e => .error e
    | .ok outs => marshalFn (setItems doc (outs.map (·.item)))

/-- `SPDXEnricher.Enrich`: parse (with GitHub-envelope unwrap), then the
common enrichment flow; marshalling of the minimal `Document` struct
cannot fail. -/
def SPDXEnrich (env : WorkerEnv) (sbom : Json) (parallelism : Int) :
    Except String Json :=
  match ParseSBOMFile sbom with
  | .error e => .error ("failed to parse SBOM file: " ++ e)
  | .ok doc =>
    enrichDocument spdxOps env sbom parallelism doc
      (fun d => d.packages.getD [])
      (fun d ps => { d with packages := some ps })
      (fun d => .ok (encodeDocument d))

/-- `CycloneDXEnricher.Enrich`: parse, then the common enrichment flow;
marshalling of the minimal `BOM` struct cannot fail. -/
def CycloneDXEnrich (env : WorkerEnv) (sbom : Json) (parallelism : Int) :
    Except String Json :=
  match ParseCycloneDXFile sbom with
  | .error e => .error ("failed to parse SBOM file: " ++ e)
  | .ok bom =>
    enrichDocument cdxOps env sbom parallelism bom
      (fun b => b.components)
      (fun b cs => { b with components := cs })
      (fun b => .ok (encodeBOM b))

/-! ## Spec-side predicates

These two definitions follow the specification's wording, to be compared
against the source-derived `Package.HasLicense` / `HasComponentLicense`. -/

/-- The spec's "meaningful" SPDX license field: non-empty and not equal to
the sentinel tokens `NONE` or `NOASSERTION`. -/
def meaningfulLicense (s : String) : Bool :=
  s != "" && s != "NONE" && s != "NOASSERTION"

/-- The spec's condition on one CycloneDX license choice: a non-empty
`expression`, or a nested `license` object with non-empty `id`, `name`,
or `expression`. -/
def choiceHasLicenseSpec (ch : LicenseChoice) : Bool :=
  ch.expression != "" ||
  (match ch.license with
   | some l => l.id != "" || l.name != "" || l.expression != ""
   | none => false)

/-! ## Helper lemmas -/

/-- Running a faithful decoder over encoded elements recovers the list. -/
theorem decodeEach_encode {α : Type} {dec : Json → Option α} {enc : α → Json}
    (h : ∀ x, dec (enc x) = some x) :
    ∀ xs : List α, decodeEach dec (xs.map enc) = some xs := by
  intro xs
  induction xs with
  | nil => rfl
  | cons x rest ih => simp [decodeEach, h, ih]

/-- The provider-side tail of the cache-through lookup always calls the
provider and reports the cache-read flag it was given. -/
theorem providerGetFromService_trace (opts : GetOptions) (b : Bool) :
    (providerGetFromService opts b).cacheRead = b
    ∧ (providerGetFromService opts b).providerCalled = true := by
  unfold providerGetFromService
  split
  · exact ⟨rfl, rfl⟩
  · split
    · split
      · split
        · exact ⟨rfl, rfl⟩
        · exact ⟨rfl, rfl⟩
      · exact ⟨rfl, rfl⟩
    · exact ⟨rfl, rfl⟩

/-- When purl extraction succeeds and the item has no license, the worker
performs exactly one cache-through lookup under that purl. -/
theorem processItem_lookup {α : Type} (ops : ItemOps α) (env : WorkerEnv)
    (item : α) (purl : String) (hp : ops.getPurl item = .ok purl)
    (hl : ops.hasLicense item = false) :
    (processItem ops env item).enqueued = true
    ∧ (processItem ops env item).lookup =
        some (purl, providerGet ⟨purl, env.provider, env.cache, env.cacheTTL⟩) := by
  unfold processItem
  rw [hp]
  simp only [hl, Bool.false_eq_true, if_false]
  split
  · exact ⟨rfl, rfl⟩
  · split
    · exact ⟨rfl, rfl⟩
    · exact ⟨rfl, rfl⟩

/-! ## Claim theorems -/

/-- C1: any enrichable item whose `HasLicense()` is true when the run
starts is left completely unmodified — the worker hits the skip before any
cache-through lookup, so no cache read, provider call, or `SetLicense`
touches it, whatever the provider would have answered. -/
theorem c1_haslicense_item_untouched {α : Type} (ops : ItemOps α)
    (env : WorkerEnv) (item : α) (h : ops.hasLicense item = true) :
    (processItem ops env item).item = item
    ∧ (processItem ops env item).lookup = none := by
  unfold processItem
  cases hp : ops.getPurl item with
  | error e => exact ⟨rfl, rfl⟩
  | ok purl => simp [h]

/-- C1 witness: an SPDX package carrying `licenseConcluded = "Apache-2.0"`
is untouched even under a provider that answers `"MIT"`. -/
theorem c1_haslicense_item_untouched_witness :
    Package.HasLicense
      ⟨"SPDXRef-Package-express", "express", "4.17.1", "", "Apache-2.0", "", none⟩ = true
    ∧ ((processItem spdxOps ⟨fun _ => .ok "MIT", none, 0⟩
          ⟨"SPDXRef-Package-express", "express", "4.17.1", "", "Apache-2.0", "", none⟩).item =
        ⟨"SPDXRef-Package-express", "express", "4.17.1", "", "Apache-2.0", "", none⟩
      ∧ (processItem spdxOps ⟨fun _ => .ok "MIT", none, 0⟩
          ⟨"SPDXRef-Package-express", "express", "4.17.1", "", "Apache-2.0", "", none⟩).lookup =
        none) :=
  ⟨by decide,
   c1_haslicense_item_untouched spdxOps ⟨fun _ => .ok "MIT", none, 0⟩
     ⟨"SPDXRef-Package-express", "express", "4.17.1", "", "Apache-2.0", "", none⟩
     (by decide)⟩

/-- C2: the cache-through lookup: (i) a successful cache read returns the
cached value without calling the provider; (ii) a non-miss cache error is
surfaced without calling the provider; (iii) on a miss, a non-empty
provider result is written through `SetWithTTL(purl, license, ttl)`, and a
write failure is surfaced even though the lookup succeeded; (iv) an
empty-string provider result is returned as empty and never written. -/
theorem c2_cache_through_contract (prov : String → Except ProviderError String)
    (co : CacheOracle) (purl : String) (ttl : Int) :
    (∀ v, co.get purl = .ok v →
      providerGet ⟨purl, prov, some co, ttl⟩ = ⟨.ok v, true, false, none⟩)
    ∧ (∀ e, co.get purl = .error e → e ≠ .miss →
      providerGet ⟨purl, prov, some co, ttl⟩ =
        ⟨.error (.fromCacheGet e), true, false, none⟩)
    ∧ (∀ lic, co.get purl = .error .miss → prov purl = .ok lic → lic ≠ "" →
      (providerGet ⟨purl, prov, some co, ttl⟩).cacheSet = some (purl, lic, ttl)
      ∧ (co.setWithTTL purl lic ttl = .ok () →
          (providerGet ⟨purl, prov, some co, ttl⟩).result = .ok lic)
      ∧ (∀ se, co.setWithTTL purl lic ttl = .error se →
          (providerGet ⟨purl, prov, some co, ttl⟩).result =
            .error (.fromCacheSet se)))
    ∧ (co.get purl = .error .miss → prov purl = .ok "" →
      providerGet ⟨purl, prov, some co, ttl⟩ = ⟨.ok "", true, true, none⟩) := by
  refine ⟨?_, ?_, ?_, ?_⟩
  · intro v hv
    simp [providerGet, hv]
  · intro e he hne
    have : (e == CacheError.miss) = false := by
      cases e <;> simp_all
    simp [providerGet, he, this]
  · intro lic hmiss hprov hne
    have hbne : (lic != "") = true := by
      simp [bne, hne]
    refine ⟨?_, ?_, ?_⟩
    · simp only [providerGet, hmiss]
      simp only [providerGetFromService, hprov, hbne, if_true]
      cases hset : co.setWithTTL purl lic ttl with
      | error se => simp
      | ok u => simp
    · intro hset
      simp [providerGet, hmiss, providerGetFromService, hprov, hbne, hset]
    · intro se hset
      simp [providerGet, hmiss, providerGetFromService, hprov, hbne, hset]
  · intro hmiss hprov
    simp [providerGet, hmiss, providerGetFromService, hprov]

/-- C2 witness: the four contract cases at concrete purls against a
concrete keyed cache oracle and provider. -/
theorem c2_cache_through_contract_witness :
    (providerGet ⟨"pkg:hit", (fun k => if k == "pkg:empty" then .ok "" else .ok "BSD-3-Clause"),
        some ⟨fun k => if k == "pkg:hit" then .ok "MIT"
                else if k == "pkg:closed" then .error .closed else .error .miss,
              fun _ _ _ => .ok ()⟩, 7⟩ = ⟨.ok "MIT", true, false, none⟩)
    ∧ (providerGet ⟨"pkg:closed", (fun k => if k == "pkg:empty" then .ok "" else .ok "BSD-3-Clause"),
        some ⟨fun k => if k == "pkg:hit" then .ok "MIT"
                else if k == "pkg:closed" then .error .closed else .error .miss,
              fun _ _ _ => .ok ()⟩, 7⟩ = ⟨.error (.fromCacheGet .closed), true, false, none⟩)
    ∧ ((providerGet ⟨"pkg:new", (fun k => if k == "pkg:empty" then .ok "" else .ok "BSD-3-Clause"),
        some ⟨fun k => if k == "pkg:hit" then .ok "MIT"
                else if k == "pkg:closed" then .error .closed else .error .miss,
              fun _ _ _ => .ok ()⟩, 7⟩).cacheSet = some ("pkg:new", "BSD-3-Clause", 7)
      ∧ (providerGet ⟨"pkg:new", (fun k => if k == "pkg:empty" then .ok "" else .ok "BSD-3-Clause"),
        some ⟨fun k => if k == "pkg:hit" then .ok "MIT"
                else if k == "pkg:closed" then .error .closed else .error .miss,
              fun _ _ _ => .ok ()⟩, 7⟩).result = .ok "BSD-3-Clause")
    ∧ (providerGet ⟨"pkg:empty", (fun k => if k == "pkg:empty" then .ok "" else .ok "BSD-3-Clause"),
        some ⟨fun k => if k == "pkg:hit" then .ok "MIT"
                else if k == "pkg:closed" then .error .closed else .error .miss,
              fun _ _ _ => .ok ()⟩, 7⟩ = ⟨.ok "", true, true, none⟩) := by
  refine ⟨?_, ?_, ⟨?_, ?_⟩, ?_⟩
  · exact (c2_cache_through_contract _ _ "pkg:hit" 7).1 "MIT" (by decide)
  · exact (c2_cache_through_contract _ _ "pkg:closed" 7).2.1 .closed (by decide) (by decide)
  · exact ((c2_cache_through_contract _ _ "pkg:new" 7).2.2.1 "BSD-3-Clause"
      (by decide) (by decide) (by decide)).1
  · exact ((c2_cache_through_contract _ _ "pkg:new" 7).2.2.1 "BSD-3-Clause"
      (by decide) (by decide) (by decide)).2.1 (by decide)
  · exact (c2_cache_through_contract _ _ "pkg:empty" 7).2.2.2 (by decide) (by decide)

/-- C6: an SPDX license field is meaningful iff non-empty and neither
`NONE` nor `NOASSERTION`; `HasLicense` is exactly "concluded or declared
is meaningful"; `SetLicense L` always writes `licenseConcluded = L` and
writes `licenseDeclared = L` exactly when the declared field was absent,
empty, `NONE`, or `NOASSERTION`; no other field changes. -/
theorem c6_spdx_haslicense_setlicense (p : Package) (L : String) :
    Package.HasLicense p =
      (meaningfulLicense p.licenseConcluded || meaningfulLicense p.licenseDeclared)
    ∧ (p.SetLicense L).licenseConcluded = L
    ∧ (p.SetLicense L).licenseDeclared =
        (if meaningfulLicense p.licenseDeclared then p.licenseDeclared else L)
    ∧ (p.SetLicense L).SPDXID = p.SPDXID
    ∧ (p.SetLicense L).name = p.name
    ∧ (p.SetLicense L).versionInfo = p.versionInfo
    ∧ (p.SetLicense L).homepage = p.homepage
    ∧ (p.SetLicense L).externalRefs = p.externalRefs := by
  obtain ⟨spdxid, nm, vi, hp, lc, ld, refs⟩ := p
  refine ⟨rfl, ?_⟩
  simp only [Package.SetLicense, meaningfulLicense, spdxLicenseNone,
    spdxLicenseNoAssertion]
  cases h1 : ld == "" <;> cases h2 : ld == "NONE" <;> cases h3 : ld == "NOASSERTION" <;>
    simp_all [bne]

/-- C7: a CycloneDX component has a license iff some element of its
`licenses` array has a non-empty `expression` or a nested `license` object
with non-empty `id`, `name`, or `expression`; `SetLicense L` appends a new
`{expression: L}` choice (creating the array if absent) and never fills in
an existing choice or touches any other field. -/
theorem c7_cdx_haslicense_setlicense (c : Component) (L : String) :
    (Component.HasLicense c = true ↔
      ∃ ch ∈ c.licenses, choiceHasLicenseSpec ch = true)
    ∧ (c.SetLicense L).licenses = c.licenses ++ [⟨none, L⟩]
    ∧ (c.SetLicense L).bomRef = c.bomRef
    ∧ (c.SetLicense L).name = c.name
    ∧ (c.SetLicense L).version = c.version
    ∧ (c.SetLicense L).purl = c.purl
    ∧ (c.SetLicense L).externalReferences = c.externalReferences := by
  refine ⟨?_, rfl, rfl, rfl, rfl, rfl, rfl⟩
  unfold Component.HasLicense HasComponentLicense choiceHasLicenseSpec
  cases hl : c.licenses with
  | nil => simp
  | cons ch rest => simp [List.any_eq_true]

/-- C10: CycloneDX purl extraction never fails — `GetPurl` returns the
`purl` field with a nil error even when it is empty — so an unlicensed
component with an empty purl is enqueued and, when the configured cache
misses, triggers a cache read and a provider lookup keyed by that (empty)
purl; an SPDX package with no `purl` external reference is instead skipped
at dispatch, before any lookup. -/
theorem c10_cdx_empty_purl_dispatched (env : WorkerEnv) (c : Component)
    (co : CacheOracle) (p : Package) :
    Component.GetPurl c = .ok c.purl
    ∧ (HasComponentLicense c = false → env.cache = some co →
        co.get c.purl = .error .miss →
        (processItem cdxOps env c).enqueued = true
        ∧ ∃ lo, (processItem cdxOps env c).lookup = some (c.purl, lo)
            ∧ lo.cacheRead = true ∧ lo.providerCalled = true)
    ∧ ((p.externalRefs.getD []).all (fun r => r.referenceType != "purl") = true →
        processItem spdxOps env p = ⟨p, false, none⟩) := by
  refine ⟨rfl, ?_, ?_⟩
  · intro hnl hcache hmiss
    have hout : providerGet ⟨c.purl, env.provider, env.cache, env.cacheTTL⟩ =
        providerGetFromService ⟨c.purl, env.provider, env.cache, env.cacheTTL⟩ true := by
      simp [providerGet, hcache, hmiss]
    have htrace := providerGetFromService_trace
      ⟨c.purl, env.provider, env.cache, env.cacheTTL⟩ true
    have hstep := processItem_lookup cdxOps env c c.purl rfl hnl
    refine ⟨hstep.1, providerGetFromService ⟨c.purl, env.provider, env.cache, env.cacheTTL⟩ true,
      ?_, htrace.1, htrace.2⟩
    rw [hstep.2, hout]
  · intro hall
    have : (p.externalRefs.getD []).find? (fun ref => ref.referenceType == "purl") = none := by
      rw [List.find?_eq_none]
      intro x hx
      have := (List.all_eq_true.mp hall) x hx
      simpa [bne] using this
    simp [processItem, spdxOps, Package.GetPurl, GetSPDXPackagePurl, this]

/-- C10 witness: a license-less component with `purl = ""` is enqueued and
looked up under the empty key, while an SPDX package whose external
references carry no purl entry is skipped at dispatch. -/
theorem c10_cdx_empty_purl_dispatched_witness :
    (HasComponentLicense ⟨"ref-a", "lodash", "4.17.21", "", [], none⟩ = false
    ∧ ((processItem cdxOps
          ⟨fun _ => .ok "MIT", some ⟨fun _ => .error .miss, fun _ _ _ => .ok ()⟩, 0⟩
          ⟨"ref-a", "lodash", "4.17.21", "", [], none⟩).enqueued = true
      ∧ ∃ lo, (processItem cdxOps
          ⟨fun _ => .ok "MIT", some ⟨fun _ => .error .miss, fun _ _ _ => .ok ()⟩, 0⟩
          ⟨"ref-a", "lodash", "4.17.21", "", [], none⟩).lookup = some ("", lo)
          ∧ lo.cacheRead = true ∧ lo.providerCalled = true))
    ∧ processItem spdxOps
        ⟨fun _ => .ok "MIT", some ⟨fun _ => .error .miss, fun _ _ _ => .ok ()⟩, 0⟩
        ⟨"SPDXRef-a", "a", "", "", "", "", some [⟨"OTHER", "website", "https://x"⟩]⟩ =
      ⟨⟨"SPDXRef-a", "a", "", "", "", "", some [⟨"OTHER", "website", "https://x"⟩]⟩,
        false, none⟩ := by
  refine ⟨⟨by decide, ?_⟩, ?_⟩
  · exact (c10_cdx_empty_purl_dispatched
      ⟨fun _ => .ok "MIT", some ⟨fun _ => .error .miss, fun _ _ _ => .ok ()⟩, 0⟩
      ⟨"ref-a", "lodash", "4.17.21", "", [], none⟩
      ⟨fun _ => .error .miss, fun _ _ _ => .ok ()⟩
      ⟨"SPDXRef-a", "a", "", "", "", "", some [⟨"OTHER", "website", "https://x"⟩]⟩).2.1
      (by decide) rfl (by decide)
  · exact (c10_cdx_empty_purl_dispatched
      ⟨fun _ => .ok "MIT", some ⟨fun _ => .error .miss, fun _ _ _ => .ok ()⟩, 0⟩
      ⟨"ref-a", "lodash", "4.17.21", "", [], none⟩
      ⟨fun _ => .error .miss, fun _ _ _ => .ok ()⟩
      ⟨"SPDXRef-a", "a", "", "", "", "", some [⟨"OTHER", "website", "https://x"⟩]⟩).2.2
      (by decide)

/-- With a marshaller that cannot fail, the common enrichment flow always
succeeds. -/
theorem enrichDocument_total {α δ : Type} (ops : ItemOps α) (env : WorkerEnv)
    (sbom : Json) (par : Int) (doc : δ) (gi : δ → List α) (si : δ → List α → δ)
    (enc : δ → Json) :
    ∃ out, enrichDocument ops env sbom par doc gi si (fun d => .ok (enc d)) = .ok out := by
  by_cases h : ((gi doc).length == 0) = true
  · exact ⟨sbom, by simp [enrichDocument, h]⟩
  · exact ⟨enc (si doc (((gi doc).map (processItem ops env)).map (·.item))),
      by simp [enrichDocument, processItemsParallel, h]⟩

/-- C3: when the extracted item sequence is empty, `Enrich` returns the
original input unchanged — including, on the SPDX path, a surrounding
GitHub `{"sbom": ...}` envelope that the non-empty path would strip. -/
theorem c3_empty_items_identity (env : WorkerEnv) (j : Json) (par : Int) :
    (∀ doc, ParseSBOMFile j = .ok doc → doc.packages.getD [] = [] →
      SPDXEnrich env j par = .ok j)
    ∧ (∀ bom, ParseCycloneDXFile j = .ok bom → bom.components = [] →
      CycloneDXEnrich env j par = .ok j) := by
  constructor
  · intro doc hparse hempty
    unfold SPDXEnrich
    rw [hparse]
    simp [enrichDocument, hempty]
  · intro bom hparse hempty
    unfold CycloneDXEnrich
    rw [hparse]
    simp [enrichDocument, hempty]

/-- C3 witness: an enveloped SPDX document with `packages: []` and a
CycloneDX document without components come back verbatim. -/
theorem c3_empty_items_identity_witness :
    SPDXEnrich ⟨fun _ => .ok "MIT", none, 0⟩
      (.obj [("sbom", .obj [("spdxVersion", .str "SPDX-2.3"), ("packages", .arr [])])]) 1 =
      .ok (.obj [("sbom", .obj [("spdxVersion", .str "SPDX-2.3"), ("packages", .arr [])])])
    ∧ CycloneDXEnrich ⟨fun _ => .ok "MIT", none, 0⟩
      (.obj [("bomFormat", .str "CycloneDX"), ("specVersion", .str "1.4")]) 1 =
      .ok (.obj [("bomFormat", .str "CycloneDX"), ("specVersion", .str "1.4")]) :=
  ⟨(c3_empty_items_identity ⟨fun _ => .ok "MIT", none, 0⟩
      (.obj [("sbom", .obj [("spdxVersion", .str "SPDX-2.3"), ("packages", .arr [])])]) 1).1
      ⟨"SPDX-2.3", "", some []⟩ rfl rfl,
   (c3_empty_items_identity ⟨fun _ => .ok "MIT", none, 0⟩
      (.obj [("bomFormat", .str "CycloneDX"), ("specVersion", .str "1.4")]) 1).2
      ⟨"CycloneDX", "1.4", []⟩ rfl rfl⟩

/-- C9: the engine fails only on document-level problems: the worker pool
itself never returns an error whatever the per-item outcomes; an
enrichment error can only be a marshal error; an item whose lookup failed,
or whose purl could not be extracted, is skipped unchanged; and with the
actual (non-failing) marshallers both `Enrich` entry points succeed on
every parseable document. -/
theorem c9_per_item_errors_absorbed {α δ : Type} (ops : ItemOps α)
    (env : WorkerEnv) (items : List α) (par : Int) (doc : δ)
    (getItems : δ → List α) (setItems : δ → List α → δ)
    (marshalFn : δ → Except String Json) (sbom : Json) :
    processItemsParallel ops env items par = .ok (items.map (processItem ops env))
    ∧ (∀ e, enrichDocument ops env sbom par doc getItems setItems marshalFn = .error e →
        marshalFn (setItems doc
          (((getItems doc).map (processItem ops env)).map (·.item))) = .error e)
    ∧ (∀ item purl lo le, (processItem ops env item).lookup = some (purl, lo) →
        lo.result = .error le → (processItem ops env item).item = item)
    ∧ (∀ item err, ops.getPurl item = .error err →
        processItem ops env item = ⟨item, false, none⟩)
    ∧ (∀ j d, ParseSBOMFile j = .ok d → ∃ out, SPDXEnrich env j par = .ok out)
    ∧ (∀ j b, ParseCycloneDXFile j = .ok b → ∃ out, CycloneDXEnrich env j par = .ok out) := by
  refine ⟨rfl, ?_, ?_, ?_, ?_, ?_⟩
  · intro e h
    by_cases hlen : ((getItems doc).length == 0) = true
    · simp [enrichDocument, hlen] at h
    · simpa [enrichDocument, processItemsParallel, hlen] using h
  · intro item purl lo le hlk hres
    unfold processItem at hlk ⊢
    cases hp : ops.getPurl item with
    | error err => rw [hp] at hlk
    | ok p =>
      rw [hp] at hlk
      by_cases hhl : ops.hasLicense item = true
      · simp [hhl] at hlk
      · have hhl' : ops.hasLicense item = false := by
          simpa using hhl
        simp only [hhl', Bool.false_eq_true, if_false] at hlk ⊢
        cases hres2 : (providerGet ⟨p, env.provider, env.cache, env.cacheTTL⟩).result with
        | error e2 => simp [hres2]
        | ok lic =>
          exfalso
          by_cases hlic : (lic != "") = true <;>
            simp [hres2, hlic] at hlk <;>
            rw [hlk.2] at hres2 <;>
            rw [hres2] at hres <;>
            exact Except.noConfusion hres
  · intro item err hp
    unfold processItem
    rw [hp]
  · intro j d hparse
    unfold SPDXEnrich
    rw [hparse]
    exact enrichDocument_total spdxOps env j par d _ _ encodeDocument
  · intro j b hparse
    unfold CycloneDXEnrich
    rw [hparse]
    exact enrichDocument_total cdxOps env j par b _ _ encodeBOM

/-- C9 witness: a failing marshal is the only error source; a provider
failure and a missing purl each leave their item untouched; and both
enrichers succeed on concrete parseable documents under a provider that
always fails. -/
theorem c9_per_item_errors_absorbed_witness :
    ((fun _ : Document => (.error "marshal failed" : Except String Json))
        ({ spdxVersion := "SPDX-2.3", SPDXID := "d", packages := some [] } : Document) =
      .error "marshal failed")
    ∧ (processItem spdxOps ⟨fun _ => .error .notFound, none, 0⟩
        ⟨"SPDXRef-a", "a", "", "", "", "",
          some [⟨"PACKAGE-MANAGER", "purl", "pkg:npm/a@1.0.0"⟩]⟩).item =
      ⟨"SPDXRef-a", "a", "", "", "", "",
        some [⟨"PACKAGE-MANAGER", "purl", "pkg:npm/a@1.0.0"⟩]⟩
    ∧ processItem spdxOps ⟨fun _ => .error .notFound, none, 0⟩
        ⟨"SPDXRef-b", "b", "", "", "", "", none⟩ =
      ⟨⟨"SPDXRef-b", "b", "", "", "", "", none⟩, false, none⟩
    ∧ (∃ out, SPDXEnrich ⟨fun _ => .error .notFound, none, 0⟩
        (.obj [("spdxVersion", .str "SPDX-2.3"),
               ("packages", .arr [.obj [("SPDXID", .str "SPDXRef-a")]])]) 1 = .ok out)
    ∧ (∃ out, CycloneDXEnrich ⟨fun _ => .error .notFound, none, 0⟩
        (.obj [("bomFormat", .str "CycloneDX"), ("specVersion", .str "1.4"),
               ("components", .arr [.obj [("purl", .str "pkg:npm/a@1.0.0")]])]) 1 =
        .ok out) := by
  refine ⟨?_, ?_, ?_, ?_, ?_⟩
  · exact (c9_per_item_errors_absorbed spdxOps ⟨fun _ => .error .notFound, none, 0⟩
      [] 1 ({ spdxVersion := "SPDX-2.3", SPDXID := "d",
              packages := some [⟨"SPDXRef-a", "", "", "", "", "", none⟩] } : Document)
      (fun d => (d.packages.getD []))
      (fun d ps => { d with packages := some ps })
      (fun _ => .error "marshal failed") .null).2.1 "marshal failed" (by rfl)
  · exact (c9_per_item_errors_absorbed spdxOps ⟨fun _ => .error .notFound, none, 0⟩
      [] 1 ({ spdxVersion := "SPDX-2.3", SPDXID := "d", packages := some [] } : Document)
      (fun d => (d.packages.getD []))
      (fun d ps => { d with packages := some ps })
      (fun _ => .error "marshal failed") .null).2.2.1
      ⟨"SPDXRef-a", "a", "", "", "", "",
        some [⟨"PACKAGE-MANAGER", "purl", "pkg:npm/a@1.0.0"⟩]⟩
      "pkg:npm/a@1.0.0" ⟨.error (.fromProvider .notFound), false, true, none⟩
      (.fromProvider .notFound) (by decide) (by decide)
  · exact (c9_per_item_errors_absorbed spdxOps ⟨fun _ => .error .notFound, none, 0⟩
      [] 1 ({ spdxVersion := "SPDX-2.3", SPDXID := "d", packages := some [] } : Document)
      (fun d => (d.packages.getD []))
      (fun d ps => { d with packages := some ps })
      (fun _ => .error "marshal failed") .null).2.2.2.1
      ⟨"SPDXRef-b", "b", "", "", "", "", none⟩
      "no PURL found for package with SPDX ID SPDXRef-b" (by decide)
  · exact (c9_per_item_errors_absorbed spdxOps ⟨fun _ => .error .notFound, none, 0⟩
      [] 1 ({ spdxVersion := "SPDX-2.3", SPDXID := "d", packages := some [] } : Document)
      (fun d => (d.packages.getD []))
      (fun d ps => { d with packages := some ps })
      (fun _ => .error "marshal failed") .null).2.2.2.2.1
      (.obj [("spdxVersion", .str "SPDX-2.3"),
             ("packages", .arr [.obj [("SPDXID", .str "SPDXRef-a")]])])
      ⟨"SPDX-2.3", "", some [⟨"SPDXRef-a", "", "", "", "", "", none⟩]⟩ (by decide)
  · exact (c9_per_item_errors_absorbed spdxOps ⟨fun _ => .error .notFound, none, 0⟩
      [] 1 ({ spdxVersion := "SPDX-2.3", SPDXID := "d", packages := some [] } : Document)
      (fun d => (d.packages.getD []))
      (fun d ps => { d with packages := some ps })
      (fun _ => .error "marshal failed") .null).2.2.2.2.2
      (.obj [("bomFormat", .str "CycloneDX"), ("specVersion", .str "1.4"),
             ("components", .arr [.obj [("purl", .str "pkg:npm/a@1.0.0")]])])
      ⟨"CycloneDX", "1.4", [⟨"", "", "", "pkg:npm/a@1.0.0", [], none⟩]⟩ (by decide)

/-- C8: for both cache backends, a successful `SetWithTTL` with `ttl > 0`
makes `Get` return the value at any instant up to the stored expiry and a
miss at any later instant (a stale value is never surfaced); with
`ttl ≤ 0` the entry never expires. -/
theorem c8_cache_ttl (m : MemoryCache) (b : BboltCache) (key value : String)
    (ttl t0 now : Int) (m' : MemoryCache) (b' : BboltCache) :
    (m.SetWithTTL t0 key value ttl = .ok m' →
      ((ttl > 0 → (now ≤ t0 + ttl → m'.Get now key = .ok value)
          ∧ (now > t0 + ttl → m'.Get now key = .error .miss))
       ∧ (ttl ≤ 0 → m'.Get now key = .ok value)))
    ∧ (b.SetWithTTL t0 key value ttl = .ok b' →
      ((ttl > 0 → (now ≤ t0 + ttl → b'.Get now key = .ok value)
          ∧ (now > t0 + ttl → b'.Get now key = .error .miss))
       ∧ (ttl ≤ 0 → b'.Get now key = .ok value))) := by
  constructor
  · intro hset
    unfold MemoryCache.SetWithTTL at hset
    by_cases hc : m.closed
    · simp [hc] at hset
    · simp only [hc, if_false] at hset
      injection hset with hset
      subst hset
      constructor
      · intro httl
        constructor
        · intro hnow
          simp [MemoryCache.Get, hc, MemEntry.isExpired, httl]
          omega
        · intro hnow
          simp [MemoryCache.Get, hc, MemEntry.isExpired, httl]
          omega
      · intro httl
        have : ¬ ttl > 0 := by omega
        simp [MemoryCache.Get, hc, MemEntry.isExpired, this]
  · intro hset
    unfold BboltCache.SetWithTTL at hset
    by_cases hc : b.closed
    · simp [hc] at hset
    · by_cases hk : (key == "") = true
      · simp [hc, hk] at hset
      · simp only [hc, hk, if_false, Bool.false_eq_true] at hset
        injection hset with hset
        subst hset
        constructor
        · intro httl
          constructor
          · intro hnow
            simp [BboltCache.Get, hc, BboltStored.isExpiredEntry, httl]
            omega
          · intro hnow
            simp [BboltCache.Get, hc, BboltStored.isExpiredEntry, httl]
            omega
        · intro httl
          have : ¬ ttl > 0 := by omega
          simp [BboltCache.Get, hc, BboltStored.isExpiredEntry, this]

/-- C8 witness: set at instant 100 with ttl 5 — hits at 103 and 105,
misses at 106; set with ttl 0 — still a hit at 9999; on both backends. -/
theorem c8_cache_ttl_witness :
    (MemoryCache.Get ⟨false, [("pkg:npm/a", ⟨"MIT", some 105⟩)]⟩ 103 "pkg:npm/a" = .ok "MIT"
    ∧ MemoryCache.Get ⟨false, [("pkg:npm/a", ⟨"MIT", some 105⟩)]⟩ 106 "pkg:npm/a" =
        .error .miss)
    ∧ MemoryCache.Get ⟨false, [("pkg:npm/a", ⟨"MIT", none⟩)]⟩ 9999 "pkg:npm/a" = .ok "MIT"
    ∧ (BboltCache.Get ⟨false, [("pkg:npm/a", .entry "MIT" (some 105))]⟩ 103 "pkg:npm/a" =
        .ok "MIT"
    ∧ BboltCache.Get ⟨false, [("pkg:npm/a", .entry "MIT" (some 105))]⟩ 106 "pkg:npm/a" =
        .error .miss)
    ∧ BboltCache.Get ⟨false, [("pkg:npm/a", .entry "MIT" none)]⟩ 9999 "pkg:npm/a" =
        .ok "MIT" := by
  refine ⟨⟨?_, ?_⟩, ?_, ⟨?_, ?_⟩, ?_⟩
  · exact (((c8_cache_ttl ⟨false, []⟩ ⟨false, []⟩ "pkg:npm/a" "MIT" 5 100 103
      ⟨false, [("pkg:npm/a", ⟨"MIT", some 105⟩)]⟩ ⟨false, []⟩).1 (by decide)).1
      (by decide)).1 (by decide)
  · exact (((c8_cache_ttl ⟨false, []⟩ ⟨false, []⟩ "pkg:npm/a" "MIT" 5 100 106
      ⟨false, [("pkg:npm/a", ⟨"MIT", some 105⟩)]⟩ ⟨false, []⟩).1 (by decide)).1
      (by decide)).2 (by decide)
  · exact ((c8_cache_ttl ⟨false, []⟩ ⟨false, []⟩ "pkg:npm/a" "MIT" 0 100 9999
      ⟨false, [("pkg:npm/a", ⟨"MIT", none⟩)]⟩ ⟨false, []⟩).1 (by decide)).2 (by decide)
  · exact (((c8_cache_ttl ⟨false, []⟩ ⟨false, []⟩ "pkg:npm/a" "MIT" 5 100 103
      ⟨false, []⟩ ⟨false, [("pkg:npm/a", .entry "MIT" (some 105))]⟩).2 (by decide)).1
      (by decide)).1 (by decide)
  · exact (((c8_cache_ttl ⟨false, []⟩ ⟨false, []⟩ "pkg:npm/a" "MIT" 5 100 106
      ⟨false, []⟩ ⟨false, [("pkg:npm/a", .entry "MIT" (some 105))]⟩).2 (by decide)).1
      (by decide)).2 (by decide)
  · exact ((c8_cache_ttl ⟨false, []⟩ ⟨false, []⟩ "pkg:npm/a" "MIT" 0 100 9999
      ⟨false, []⟩ ⟨false, [("pkg:npm/a", .entry "MIT" none)]⟩).2 (by decide)).2 (by decide)

/-- C4 counterexample: with HTTP 200 and body
`[{"normalized_licenses": []}, {"normalized_licenses": ["MIT"]}]` the
client returns NotFound although the result set is structurally valid,
non-empty, and not all license lists are empty — the code only inspects
the first result's list, so "NotFound exactly when ... all license lists
are empty" is false. -/
theorem c4_counterexample :
    clientGet 200 (Json.arr [Json.obj [("normalized_licenses", Json.arr [])],
        Json.obj [("normalized_licenses", Json.arr [Json.str "MIT"])]]) =
      .error .notFound
    ∧ decodeResults (Json.arr [Json.obj [("normalized_licenses", Json.arr [])],
        Json.obj [("normalized_licenses", Json.arr [Json.str "MIT"])]]) =
      some [⟨[]⟩, ⟨["MIT"]⟩]
    ∧ ¬ (∀ r ∈ [LookupResponse.mk [], LookupResponse.mk ["MIT"]],
          r.normalizedLicenses = []) := by
  refine ⟨by decide, by decide, ?_⟩
  intro hall
  have h := hall ⟨["MIT"]⟩ (by simp)
  simp at h

/-- C4 (amended): the lookup returns NotFound exactly when the service
returned 404, or a structurally-valid result set that is empty, or one
whose *first* result has an empty license list; on success it returns the
first normalized license of the first result. -/
theorem c4_notfound_conditions (status : Int) (body : Json) :
    (clientGet status body = .error .notFound ↔
      status = 404
      ∨ (status = 200 ∧ ∃ rs, decodeResults body = some rs ∧
          (rs = [] ∨ ∃ r rest, rs = r :: rest ∧ r.normalizedLicenses = [])))
    ∧ (∀ r rest lic ls, status = 200 → decodeResults body = some (r :: rest) →
        r.normalizedLicenses = lic :: ls → clientGet status body = .ok lic) := by
  constructor
  · constructor
    · intro h
      unfold clientGet at h
      by_cases hs : status = 200
      · subst hs
        simp only [show ((200 : Int) != 200) = false from by decide,
          Bool.false_eq_true, if_false] at h
        cases hd : decodeResults body with
        | none => rw [hd] at h; simp at h
        | some rs =>
          simp only [hd] at h
          by_cases hc : (rs.length == 0 ||
              ((rs.headD ⟨[]⟩).normalizedLicenses).length == 0) = true
          · refine Or.inr ⟨rfl, rs, rfl, ?_⟩
            cases rs with
            | nil => exact Or.inl rfl
            | cons r rest =>
              refine Or.inr ⟨r, rest, rfl, ?_⟩
              have : r.normalizedLicenses.length = 0 := by
                simpa using hc
              exact List.length_eq_zero.mp this
          · have hc' : (rs.length == 0 ||
                ((rs.headD ⟨[]⟩).normalizedLicenses).length == 0) = false := by
              simpa using hc
            simp only [hc', Bool.false_eq_true, if_false] at h
            simp at h
      · have hs' : (status != 200) = true := bne_iff_ne.mpr hs
        simp only [hs', if_true] at h
        by_cases h4 : status = 404
        · exact Or.inl h4
        · exfalso
          have h4' : (status == 404) = false := by
            simpa using h4
          simp only [h4', Bool.false_eq_true, if_false] at h
          split at h
          · simp_all
          · split at h <;> simp_all
    · intro h
      rcases h with h4 | ⟨hs, rs, hd, hcond⟩
      · subst h4
        rfl
      · subst hs
        unfold clientGet
        simp only [show ((200 : Int) != 200) = false from by decide,
          Bool.false_eq_true, if_false]
        rw [hd]
        rcases hcond with hnil | ⟨r, rest, hrs, hlic⟩
        · subst hnil; simp
        · subst hrs; simp [hlic]
  · intro r rest lic ls hs hd hlic
    subst hs
    unfold clientGet
    simp only [show ((200 : Int) != 200) = false from by decide,
      Bool.false_eq_true, if_false]
    rw [hd]
    simp [hlic]

/-- C4 witness: a 404 yields NotFound, and a 200 with
`[{"normalized_licenses": ["MIT", "Apache-2.0"]}]` yields `"MIT"`. -/
theorem c4_notfound_conditions_witness :
    clientGet 404 Json.null = .error .notFound
    ∧ clientGet 200 (Json.arr [Json.obj [("normalized_licenses",
        Json.arr [Json.str "MIT", Json.str "Apache-2.0"])]]) = .ok "MIT" :=
  ⟨(c4_notfound_conditions 404 Json.null).1.mpr (Or.inl rfl),
   (c4_notfound_conditions 200 (Json.arr [Json.obj [("normalized_licenses",
        Json.arr [Json.str "MIT", Json.str "Apache-2.0"])]])).2
     ⟨["MIT", "Apache-2.0"]⟩ [] "MIT" ["Apache-2.0"] rfl (by decide) rfl⟩

/-! ## Round-trip lemmas for the minimal structs -/

/-- Decoding an encoded SPDX external reference is the identity. -/
theorem decodeExternalRef_encodeExternalRef (r : ExternalRef) :
    decodeExternalRef (encodeExternalRef r) = some r := rfl

/-- Decoding an encoded SPDX package is the identity. -/
theorem decodePackage_encodePackage (p : Package) :
    decodePackage (encodePackage p) = some p := by
  obtain ⟨a, b, c, d, e, f, refs⟩ := p
  cases refs with
  | none => rfl
  | some xs =>
    have h := decodeEach_encode
      (fun r => decodeExternalRef_encodeExternalRef r) xs
    simp [encodePackage, decodePackage, decodeOptArrField, encodeOptArr,
      lookupField, decodeStringField, h]

/-- Decoding an encoded SPDX document is the identity. -/
theorem decodeDocument_encodeDocument (d : Document) :
    decodeDocument (encodeDocument d) = some d := by
  obtain ⟨sv, id, pkgs⟩ := d
  cases pkgs with
  | none => rfl
  | some xs =>
    have h := decodeEach_encode (fun p => decodePackage_encodePackage p) xs
    simp [encodeDocument, decodeDocument, decodeOptArrField, encodeOptArr,
      lookupField, decodeStringField, h]

/-- Parsing a marshalled SPDX document (no envelope appears) recovers it. -/
theorem ParseSBOMFile_encodeDocument (d : Document) :
    ParseSBOMFile (encodeDocument d) = .ok d := by
  have h1 : UnwrapGitHubSBOM (encodeDocument d) = .ok (encodeDocument d) := rfl
  unfold ParseSBOMFile
  simp [h1, decodeDocument_encodeDocument]

/-- Decoding an encoded CycloneDX license is the identity. -/
theorem decodeLicense_encodeLicense (l : License) :
    decodeLicense (encodeLicense l) = some l := by
  obtain ⟨i, n, e, t⟩ := l
  by_cases hi : i = "" <;> by_cases hn : n = "" <;> by_cases he : e = "" <;>
    cases t <;>
    simp_all [encodeLicense, decodeLicense, decodeStringField, decodePtrField,
      lookupField, decodeLicenseText, encodeLicenseText, bne]

/-- Decoding an encoded CycloneDX license choice is the identity. -/
theorem decodeLicenseChoice_encodeLicenseChoice (ch : LicenseChoice) :
    decodeLicenseChoice (encodeLicenseChoice ch) = some ch := by
  obtain ⟨l, e⟩ := ch
  cases l with
  | none =>
    by_cases he : e = "" <;>
      simp_all [encodeLicenseChoice, decodeLicenseChoice, decodeStringField,
        decodePtrField, lookupField, bne]
  | some li =>
    have hobj : ∃ fs, encodeLicense li = .obj fs := ⟨_, rfl⟩
    obtain ⟨fs, hfs⟩ := hobj
    have hrt := decodeLicense_encodeLicense li
    rw [hfs] at hrt
    by_cases he : e = "" <;>
      simp_all [encodeLicenseChoice, decodeLicenseChoice, decodeStringField,
        decodePtrField, lookupField, bne, hfs, hrt]

/-- Decoding an encoded CycloneDX external reference is the identity. -/
theorem decodeExternalReference_encodeExternalReference (r : ExternalReference) :
    decodeExternalReference (encodeExternalReference r) = some r := rfl

/-- Decoding an encoded CycloneDX component is the identity. -/
theorem decodeComponent_encodeComponent (c : Component) :
    decodeComponent (encodeComponent c) = some c := by
  obtain ⟨br, n, v, p, ls, er⟩ := c
  have hch := decodeEach_encode
    (fun ch => decodeLicenseChoice_encodeLicenseChoice ch) ls
  by_cases hls : ls.isEmpty = true
  · have hnil : ls = [] := by simpa using hls
    subst hnil
    cases er with
    | none => rfl
    | some ers =>
      have her := decodeEach_encode
        (fun r => decodeExternalReference_encodeExternalReference r) ers
      simp [encodeComponent, decodeComponent, decodeStringField, decodeArrField,
        decodeOptArrField, encodeOptArr, lookupField, her]
  · cases er with
    | none =>
      simp [encodeComponent, decodeComponent, decodeStringField, decodeArrField,
        decodeOptArrField, encodeOptArr, lookupField, hls, hch]
    | some ers =>
      have her := decodeEach_encode
        (fun r => decodeExternalReference_encodeExternalReference r) ers
      simp [encodeComponent, decodeComponent, decodeStringField, decodeArrField,
        decodeOptArrField, encodeOptArr, lookupField, hls, hch, her]

/-- Decoding an encoded CycloneDX BOM is the identity. -/
theorem decodeBOM_encodeBOM (b : BOM) :
    decodeBOM (encodeBOM b) = some b := by
  obtain ⟨bf, sv, cs⟩ := b
  have h := decodeEach_encode (fun c => decodeComponent_encodeComponent c) cs
  by_cases hcs : cs.isEmpty = true
  · have hnil : cs = [] := by simpa using hcs
    subst hnil
    rfl
  · simp [encodeBOM, decodeBOM, decodeStringField, decodeArrField,
      lookupField, hcs, h]

/-- Parsing a marshalled CycloneDX BOM recovers it. -/
theorem ParseCycloneDXFile_encodeBOM (b : BOM) :
    ParseCycloneDXFile (encodeBOM b) = .ok b := by
  simp [ParseCycloneDXFile, decodeBOM_encodeBOM]

/-- C5 counterexample: a field the engine never touches (`dataLicense`)
is present on the input but dropped from the enriched output, because the
non-empty path re-marshals from the minimal structs — refuting "the fields
the engine does not touch survive the round trip". -/
theorem c5_counterexample :
    Json.hasField (.obj [("spdxVersion", .str "SPDX-2.3"),
        ("dataLicense", .str "CC0-1.0"),
        ("packages", .arr [.obj [("SPDXID", .str "SPDXRef-a"),
                                 ("licenseConcluded", .str "MIT")]])])
      "dataLicense" = true
    ∧ (SPDXEnrich ⟨fun _ => .ok "MIT", none, 0⟩
        (.obj [("spdxVersion", .str "SPDX-2.3"),
               ("dataLicense", .str "CC0-1.0"),
               ("packages", .arr [.obj [("SPDXID", .str "SPDXRef-a"),
                                        ("licenseConcluded", .str "MIT")]])]) 1).map
        (fun out => out.hasField "dataLicense") = .ok false :=
  ⟨rfl, rfl⟩

/-- C5 (amended): the fields the minimal structs model survive the round
trip — in particular the output still parses in the same format with the
same `spdxVersion` (SPDX) or the same `bomFormat` and `specVersion`
(CycloneDX); fields outside the structs survive only on the empty
fast path. -/
theorem c5_modelled_fields_roundtrip (env : WorkerEnv) (j : Json) (par : Int) :
    (∀ doc, ParseSBOMFile j = .ok doc →
      ∃ out doc', SPDXEnrich env j par = .ok out ∧ ParseSBOMFile out = .ok doc'
        ∧ doc'.spdxVersion = doc.spdxVersion ∧ doc'.SPDXID = doc.SPDXID)
    ∧ (∀ bom, ParseCycloneDXFile j = .ok bom →
      ∃ out bom', CycloneDXEnrich env j par = .ok out
        ∧ ParseCycloneDXFile out = .ok bom'
        ∧ bom'.bomFormat = bom.bomFormat ∧ bom'.specVersion = bom.specVersion) := by
  constructor
  · intro doc hparse
    unfold SPDXEnrich
    rw [hparse]
    by_cases hlen : ((doc.packages.getD []).length == 0) = true
    · exact ⟨j, doc, by simp [enrichDocument, hlen], hparse, rfl, rfl⟩
    · refine
        ⟨encodeDocument
            { doc with
              packages := some (((doc.packages.getD []).map
                (processItem spdxOps env)).map (·.item)) },
          { doc with
            packages := some (((doc.packages.getD []).map
              (processItem spdxOps env)).map (·.item)) },
          by simp [enrichDocument, processItemsParallel, hlen],
          ParseSBOMFile_encodeDocument _, rfl, rfl⟩
  · intro bom hparse
    unfold CycloneDXEnrich
    rw [hparse]
    by_cases hlen : (bom.components.length == 0) = true
    · exact ⟨j, bom, by simp [enrichDocument, hlen], hparse, rfl, rfl⟩
    · refine
        ⟨encodeBOM
            { bom with
              components := (bom.components.map
                (processItem cdxOps env)).map (·.item) },
          { bom with
            components := (bom.components.map
              (processItem cdxOps env)).map (·.item) },
          by simp [enrichDocument, processItemsParallel, hlen],
          ParseCycloneDXFile_encodeBOM _, rfl, rfl⟩

/-- C5 witness: both round trips on concrete one-item documents that take
the re-marshal path. -/
theorem c5_modelled_fields_roundtrip_witness :
    (∃ out doc', SPDXEnrich ⟨fun _ => .error .notFound, none, 0⟩
        (.obj [("spdxVersion", .str "SPDX-2.3"), ("packages", .arr [.obj []])]) 1 =
          .ok out
      ∧ ParseSBOMFile out = .ok doc'
      ∧ doc'.spdxVersion = (Document.mk "SPDX-2.3" "" (some [⟨"", "", "", "", "", "", none⟩])).spdxVersion
      ∧ doc'.SPDXID = (Document.mk "SPDX-2.3" "" (some [⟨"", "", "", "", "", "", none⟩])).SPDXID)
    ∧ (∃ out bom', CycloneDXEnrich ⟨fun _ => .error .notFound, none, 0⟩
        (.obj [("bomFormat", .str "CycloneDX"), ("specVersion", .str "1.5"),
               ("components", .arr [.obj []])]) 1 = .ok out
      ∧ ParseCycloneDXFile out = .ok bom'
      ∧ bom'.bomFormat = (BOM.mk "CycloneDX" "1.5" [⟨"", "", "", "", [], none⟩]).bomFormat
      ∧ bom'.specVersion = (BOM.mk "CycloneDX" "1.5" [⟨"", "", "", "", [], none⟩]).specVersion) :=
  ⟨(c5_modelled_fields_roundtrip ⟨fun _ => .error .notFound, none, 0⟩
      (.obj [("spdxVersion", .str "SPDX-2.3"), ("packages", .arr [.obj []])]) 1).1
      ⟨"SPDX-2.3", "", some [⟨"", "", "", "", "", "", none⟩]⟩ (by decide),
   (c5_modelled_fields_roundtrip ⟨fun _ => .error .notFound, none, 0⟩
      (.obj [("bomFormat", .str "CycloneDX"), ("specVersion", .str "1.5"),
             ("components", .arr [.obj []])]) 1).2
      ⟨"CycloneDX", "1.5", [⟨"", "", "", "", [], none⟩]⟩ (by decide)⟩

end SbomLicense
